import Mathlib

/-
Verification of the sigiljs-community/redis-plugin core: the positional-array
codec (RedisSchemaExecutor.serialize / sealJsonParser / fromCompressedArray),
the schema store operations (set / get / delete), the readiness gate
(waitInitialization) and the namespace derivation (the RedisSchema
constructor).

The embedding models the JavaScript runtime values flowing through the code as
a JSON-like value type `JVal` (with an explicit `undefined` for JavaScript
undefined, since the code's property and index accesses produce it), and
models the external collaborators (the seal schema library, the sigil
jsonStringify utility, node's crypto digest, the redis client) from the
specification; each such definition is marked "Modelled from the spec".

`JVal` and `Schema` are given as mutual inductive families (with their own
element/field list types) so that the recursions below are structural and
reduce inside the kernel. The one function whose JavaScript original recurses
on runtime property reads rather than on syntactic subterms — serialize — is
written with an explicit fuel, instantiated with a size bound that strictly
exceeds the nesting depth of the traversed value.
-/

set_option autoImplicit false
set_option maxRecDepth 8192

namespace RedisPlugin

mutual
/-- JSON-like JavaScript runtime values: the values the plugin's codec and
store operations manipulate. `undefined` is JavaScript undefined (produced by
out-of-range index access and absent-property access); `num` carries an Int,
which covers the numeric values these code paths are exercised with. -/
inductive JVal where
  | null
  | undefined
  | bool (b : Bool)
  | num (n : Int)
  | str (s : String)
  | arr (elems : JElems)
  | obj (fields : JFields)

/-- The element list of a JavaScript array value. -/
inductive JElems where
  | nil
  | cons (head : JVal) (tail : JElems)

/-- The field list of a JavaScript object value, in insertion order. -/
inductive JFields where
  | nil
  | cons (name : String) (val : JVal) (tail : JFields)
end

/-- Primitive scalar kinds of the seal schema library. -/
inductive PrimKind where
  | pstring
  | pnumber
  | pboolean
deriving DecidableEq

mutual
/-- Modelled from the spec: a seal schema template, "a declarative,
recursively composable description of a value's shape. Variants: primitive
(scalar type), nullable (permits absence), array (ordered sequence), object
(named, ordered set of child schemas — order is the declaration order and is
significant for encoding)". The seal library itself is an external
collaborator of the repository. -/
inductive Schema where
  | prim (k : PrimKind)
  | nullable (inner : Schema)
  | array (elem : Schema)
  | object (shape : Shape)

/-- The declared fields of an object schema, in declaration order. -/
inductive Shape where
  | nil
  | cons (name : String) (s : Schema) (tail : Shape)
end

/-- The JavaScript exceptions these code paths can throw. `typeError` is a
runtime TypeError (property access on null/undefined, Object.keys(undefined),
Object.values(null)); `syntaxError` is JSON.parse failing on non-JSON text;
`notArrayInput` is sealJsonParser's own Error("Input must be a JSON array
string"); `notFound` is RedisSchemaExecutor.get's Error("Key ... not
found"). -/
inductive JsError where
  | typeError
  | syntaxError
  | notArrayInput
  | notFound
deriving DecidableEq

/-- JavaScript `typeof v === "object"`: true exactly for null, arrays and
plain objects among the values we model. -/
def JVal.isObjectType : JVal → Bool
  | .null | .arr _ | .obj _ => true
  | _ => false

/-- JavaScript truthiness: null, undefined, false, 0 and the empty string are
falsy; every other modelled value is truthy. -/
def JVal.truthy : JVal → Bool
  | .null | .undefined | .bool false | .num 0 | .str "" => false
  | _ => true

/-- Whether a value is JavaScript undefined. -/
def JVal.isUndefined : JVal → Bool
  | .undefined => true
  | _ => false

/-- Whether every element satisfies the predicate. -/
def JElems.all (p : JVal → Bool) : JElems → Bool
  | .nil => true
  | .cons x xs => p x && JElems.all p xs

/-- Element list from a Lean list. -/
def JElems.ofList : List JVal → JElems
  | [] => .nil
  | x :: xs => .cons x (JElems.ofList xs)

/-- Element at an index, or JavaScript undefined when out of range. -/
def JElems.getD : JElems → Nat → JVal
  | .nil, _ => .undefined
  | .cons x _, 0 => x
  | .cons _ xs, n + 1 => JElems.getD xs n

/-- The elements as a Lean list. -/
def JElems.toList : JElems → List JVal
  | .nil => []
  | .cons x xs => x :: JElems.toList xs

/-- The field names of an object value, in order. -/
def JFields.names : JFields → List String
  | .nil => []
  | .cons k _ rest => k :: JFields.names rest

/-- JavaScript property lookup on an object's field list: the named field's
value, or undefined when absent. -/
def lookupField : JFields → String → JVal
  | .nil, _ => .undefined
  | .cons name v rest, k => if name == k then v else lookupField rest k

/-- The declared field names of a shape, in declaration order. -/
def Shape.names : Shape → List String
  | .nil => []
  | .cons k _ rest => k :: Shape.names rest

/-- The schema declared for a field of a shape, if any. -/
def Shape.find : Shape → String → Option Schema
  | .nil, _ => none
  | .cons name s rest, k => if name == k then some s else Shape.find rest k

mutual
/-- A size bound on a value: 1 plus the summed sizes of all subvalues, so it
strictly exceeds the value's nesting depth. Used as recursion fuel for
serialize. -/
def JVal.size : JVal → Nat
  | .null | .undefined | .bool _ | .num _ | .str _ => 1
  | .arr xs => 1 + JElems.size xs
  | .obj fs => 1 + JFields.size fs

/-- Summed sizes of an element list. -/
def JElems.size : JElems → Nat
  | .nil => 0
  | .cons x xs => JVal.size x + JElems.size xs

/-- Summed sizes of a field list. -/
def JFields.size : JFields → Nat
  | .nil => 0
  | .cons _ v fs => JVal.size v + JFields.size fs
end

/-- Decimal digit value of a character, if it is a digit. -/
def charDigit (c : Char) : Option Nat :=
  if c.isDigit then some (c.toNat - 48) else none

/-- Accumulate decimal digits into a number; none on a non-digit. -/
def natOfDigits : List Char → Nat → Option Nat
  | [], acc => some acc
  | c :: cs, acc =>
    match charDigit c with
    | some d => natOfDigits cs (acc * 10 + d)
    | none => none

/-- JavaScript canonical array index denoted by a string key: the key must be
the canonical decimal form of the index (digits only, no leading zero except
"0" itself), otherwise the key is an ordinary — absent — property name of the
array. -/
def canonicalIndex (s : String) : Option Nat :=
  match s.data with
  | [] => none
  | [c] => charDigit c
  | c :: cs =>
    match charDigit c with
    | some 0 => none
    | some d => natOfDigits cs d
    | none => none

/-- JavaScript string-keyed property access `payload[key]` as performed by
RedisSchemaExecutor.serialize. On an object it is field lookup; on an array a
canonical numeric key reads the element and any other key is an absent
property; on null or undefined it throws a TypeError. The remaining scalar
cases are unreachable from serialize, which returns scalars before any
property access, and are modelled as undefined. -/
def getProp : JVal → String → Except JsError JVal
  | .obj fields, k => .ok (lookupField fields k)
  | .arr xs, k =>
    .ok (match canonicalIndex k with
         | some i => xs.getD i
         | none => .undefined)
  | .null, _ => .error .typeError
  | .undefined, _ => .error .typeError
  | _, _ => .ok .undefined

/-- The field values of an object, in insertion order. -/
def objectValuesOfFields : JFields → List JVal
  | .nil => []
  | .cons _ v fs => v :: objectValuesOfFields fs

/-- JavaScript `Object.values(payload)` as invoked by serialize on a value of
typeof "object": field values in insertion order for objects, the elements
for arrays, and a TypeError for null (and undefined). Scalars are unreachable
here, since serialize returns them before this call. -/
def objectValues : JVal → Except JsError (List JVal)
  | .obj fields => .ok (objectValuesOfFields fields)
  | .arr xs => .ok xs.toList
  | .null => .error .typeError
  | .undefined => .error .typeError
  | _ => .ok []

/-- Modelled from the spec: `Object.keys(seal.exportMetadataOf(template).shape
|| {})`. The exported description of an object schema carries its `shape`,
the declared fields in declaration order; every other schema variant has no
shape, so the `|| {}` fallback yields no keys. -/
def shapeKeys : Schema → List String
  | .object sh => sh.names
  | _ => []

/-- Map a fallible function over a list, stopping at the first error — the
behaviour of a JavaScript loop whose body can throw. -/
def mapExcept {α ε β : Type} : List α → (α → Except ε β) → Except ε (List β)
  | [], _ => .ok []
  | x :: xs, f =>
    match f x with
    | .error e => .error e
    | .ok y =>
      match mapExcept xs f with
      | .error e => .error e
      | .ok ys => .ok (y :: ys)

/-- RedisSchemaExecutor.serialize (src/unnamed/part_000 lines 127-141),
fuelled. Scalars are returned unchanged; otherwise, when the top-level
template's shape has keys, the payload's properties are read in shape-key
order, and each property value that is truthy and of typeof "object" is
serialized recursively — note the recursive call in the source is
`this.serialize(v)`, which reads `this.template` again, so the recursion
keeps using the TOP-LEVEL template's shape keys, not the field's own schema;
when the template has no shape keys, `Object.values(payload)` is mapped the
same way. -/
def serializeFuel (template : Schema) : Nat → JVal → Except JsError JVal
  | 0, payload => .ok payload
  | fuel + 1, payload =>
    if payload.isObjectType then
      let keys := shapeKeys template
      if keys.isEmpty then
        match objectValues payload with
        | .error e => .error e
        | .ok vs =>
          (mapExcept vs (fun v =>
            if v.truthy && v.isObjectType then serializeFuel template fuel v
            else .ok v)).map (fun ys => JVal.arr (JElems.ofList ys))
      else
        (mapExcept keys (fun k =>
          match getProp payload k with
          | .error e => .error e
          | .ok v =>
            if v.truthy && v.isObjectType then serializeFuel template fuel v
            else .ok v)).map (fun ys => JVal.arr (JElems.ofList ys))
    else .ok payload

/-- RedisSchemaExecutor.serialize. The fuel `payload.size` strictly exceeds
the payload's nesting depth, and every recursive call of the JavaScript
original descends into a strict subvalue of the payload, so the fuel is never
exhausted on the JSON trees these code paths receive. -/
def serialize (template : Schema) (payload : JVal) : Except JsError JVal :=
  serializeFuel template payload.size payload

mutual
/-- Modelled from the spec: the JSON.stringify / JSON.parse round trip that a
value written by `set` undergoes on the wire, as a value-level normalization:
undefined becomes null inside arrays (serialize pushes undefined for absent
properties, and JSON renders undefined array elements as null), and
undefined-valued object properties are dropped. A top-level undefined is
rendered as null here; it is unreachable from `set` (serialize returns it
only for an undefined input, which no schema-conforming value is). -/
def jsonNormalize : JVal → JVal
  | .undefined => .null
  | .arr xs => .arr (jsonNormalizeElems xs)
  | .obj fs => .obj (jsonNormalizeFields fs)
  | v => v

/-- JSON normalization of array elements. -/
def jsonNormalizeElems : JElems → JElems
  | .nil => .nil
  | .cons x xs => .cons (jsonNormalize x) (jsonNormalizeElems xs)

/-- JSON normalization of object fields: undefined-valued fields are
dropped. -/
def jsonNormalizeFields : JFields → JFields
  | .nil => .nil
  | .cons k v fs =>
    match v with
    | .undefined => jsonNormalizeFields fs
    | w => .cons k (jsonNormalize w) (jsonNormalizeFields fs)
end

mutual
/-- Modelled from the spec: seal.validate's verdict (an empty error list
means valid). A primitive matches its scalar type; nullable permits null and
absence; an array needs every element to conform; an object needs every
declared field's value (undefined when the field is absent) to conform to
the field's schema. -/
def conforms : Schema → JVal → Bool
  | .prim .pstring, .str _ => true
  | .prim .pnumber, .num _ => true
  | .prim .pboolean, .bool _ => true
  | .prim _, _ => false
  | .nullable _, .null => true
  | .nullable _, .undefined => true
  | .nullable s, v => conforms s v
  | .array s, .arr xs => xs.all (fun x => conforms s x)
  | .array _, _ => false
  | .object sh, .obj fields => shapeConforms sh fields
  | .object _, _ => false

/-- Validation of an object's fields against a declared shape. -/
def shapeConforms : Shape → JFields → Bool
  | .nil, _ => true
  | .cons k s rest, fields =>
    conforms s (lookupField fields k) && shapeConforms rest fields
end

/-- JavaScript numeric index access `arr[idx]` as used by fromCompressedArray's
forEach loop: the element, or undefined when out of range. It is only ever
applied to the top-level parsed array here (the nested call throws before
indexing); non-array values are modelled as undefined. -/
def jsIndex : JVal → Nat → JVal
  | .arr xs, i => xs.getD i
  | _, _ => .undefined

/-- Embedding of fromCompressedArray's recursive call
`fromCompressedArray(raw, (propSchema as any).__$shape)` (src/unnamed/part_003
line 27): the second argument passed is the field schema's plain shape record
rather than a schema instance, so the callee's first step
`(schema as any).__$shape` reads the `__$shape` property of a plain record —
undefined — and its next step `Object.keys(undefined)` throws a TypeError
before the loop body runs. The call therefore always throws, for every raw
value and every sub-shape. -/
def fromCompressedArrayOnShapeRecord (_raw : JVal) (_sub : Shape) :
    Except JsError JVal :=
  .error .typeError

/-- The keys.forEach loop of fromCompressedArray (src/unnamed/part_003 lines
20-28): builds the result object field by field in shape order; `arr[idx]`
out of range yields undefined; a field whose declared schema is an object
schema goes through the (always-throwing) recursive call above, any other
field takes the raw element unchanged. -/
def fromCompressedFields (arr : JVal) : Shape → Nat → Except JsError JFields
  | .nil, _ => .ok .nil
  | .cons k s rest, idx =>
    match (match s with
           | .object sub => fromCompressedArrayOnShapeRecord (jsIndex arr idx) sub
           | _ => .ok (jsIndex arr idx)) with
    | .error e => .error e
    | .ok v =>
      match fromCompressedFields arr rest (idx + 1) with
      | .error e => .error e
      | .ok fs => .ok (.cons k v fs)

/-- fromCompressedArray (src/unnamed/part_003 lines 15-31) as called from
sealJsonParser with an actual object schema instance, whose `__$shape` is its
declared shape: reconstructs an object from the parsed array positionally. -/
def fromCompressedArray (arr : JVal) (sh : Shape) : Except JsError JVal :=
  (fromCompressedFields arr sh 0).map JVal.obj

/-- sealJsonParser's logic on the value JSON.parse produced
(src/unnamed/part_003 lines 33-50): a non-array parse result throws
Error("Input must be a JSON array string"); under a non-object schema the
parsed array is validated directly and returned, or null on validation
errors; under an object schema the value is reconstructed via
fromCompressedArray and validated, or null on validation errors. -/
def sealJsonParserOnParsed (parsed : JVal) (schema : Schema) :
    Except JsError (Option JVal) :=
  match parsed with
  | .arr xs =>
    match schema with
    | .object sh =>
      match fromCompressedArray (.arr xs) sh with
      | .error e => .error e
      | .ok o => if conforms (.object sh) o then .ok (some o) else .ok none
    | s => if conforms s (.arr xs) then .ok (some (.arr xs)) else .ok none
  | _ => .error .notArrayInput

/-- The raw wire text a redis key can hold, classified by what JSON.parse
does with it: `jsonText v` is (necessarily non-empty) text parsing to the
JSON value v, `emptyText` is the empty string (falsy, and JSON.parse throws
on it), `badText` is non-empty text that is not valid JSON. -/
inductive Wire where
  | jsonText (v : JVal)
  | emptyText
  | badText

/-- The exported sealJsonParser on wire text: JSON.parse, then the
parsed-value logic; JSON.parse throws a SyntaxError on the empty string and
on non-JSON text. -/
def sealJsonParser (w : Wire) (schema : Schema) : Except JsError (Option JVal) :=
  match w with
  | .jsonText v => sealJsonParserOnParsed v schema
  | .emptyText => .error .syntaxError
  | .badText => .error .syntaxError

/-- Modelled from the spec: jsonStringify(value, { throw: true }) (external,
@sigiljs/sigil/utils) renders a value as JSON text; composed with the
JSON.parse a later read performs, the text denotes exactly the
jsonNormalize-image of the value. -/
def jsonStringifyWire (v : JVal) : Wire := .jsonText (jsonNormalize v)

/-- The redis store contents: what text (if anything) each full key holds. -/
def Store := String → Option Wire

/-- redis `set`/`setEx`: write the value at the key (setEx additionally sets
a ttl — an expiry timing behaviour outside this model). -/
def storePut (store : Store) (k : String) (w : Wire) : Store :=
  fun x => if x = k then some w else store x

/-- redis `del key`: remove the key, returning how many keys were removed. -/
def storeDel (store : Store) (k : String) : Nat × Store :=
  (if (store k).isSome then 1 else 0, fun x => if x = k then none else store x)

/-- Executor state from RedisSchemaExecutor's constructor: the seal template
and the resolved options (optional ttl seconds, readOnce, resolved
namespace). The operations below model behaviour after the readiness gate has
passed (waitInitialization is modelled separately). -/
structure Executor where
  template : Schema
  ttl : Option Nat
  readOnce : Bool
  ns : String

/-- RedisSchemaExecutor.fullKey (src/unnamed/part_000 lines 123-125):
namespace + "+" + key. -/
def Executor.fullKey (e : Executor) (key : String) : String :=
  e.ns ++ "+" ++ key

/-- RedisSchemaExecutor.delete (src/unnamed/part_000 lines 85-88): awaits the
readiness gate, then issues `this.client().del(key)` — the BARE logical key
is passed to redis, not fullKey(namespace, key). Returns the deletion
count. -/
def Executor.delete (_e : Executor) (store : Store) (key : String) :
    Nat × Store :=
  storeDel store key

/-- RedisSchemaExecutor.set (src/unnamed/part_000 lines 46-55): serializes
the value via this.serialize, renders it with jsonStringify, writes the text
at fullKey(namespace, key) — via setEx when a ttl is configured, via set
otherwise; both write the same text, expiry timing is outside this model —
and returns the logical key. -/
def Executor.set (e : Executor) (store : Store) (key : String) (value : JVal) :
    Except JsError (String × Store) :=
  match serialize e.template value with
  | .error err => .error err
  | .ok sv => .ok (key, storePut store (e.fullKey key) (jsonStringifyWire sv))

/-- RedisSchemaExecutor.get (src/unnamed/part_000 lines 65-77): awaits the
readiness gate, reads the raw value at fullKey(namespace, key). A falsy raw
value — an absent key, or a key holding the empty string — yields null, or
the Key-not-found error when force is set. On a truthy raw value, when
readOnce is configured the record's deletion is initiated (this.delete(key)
— note the bare key) before parsing, and the sealJsonParser result is
returned. The result pairs the returned value (or thrown error) with the
store contents after the operation. -/
def Executor.get (e : Executor) (store : Store) (key : String) (force : Bool) :
    Except JsError (Option JVal) × Store :=
  match store (e.fullKey key) with
  | none => (if force then .error .notFound else .ok none, store)
  | some .emptyText => (if force then .error .notFound else .ok none, store)
  | some w =>
    (sealJsonParser w e.template,
     if e.readOnce then (e.delete store key).2 else store)

/-- Outcome of waitInitialization's promise and timer machinery, under
JavaScript event-loop semantics. `resolvedImmediately`: isReady was already
true and the method returned before constructing any promise.
`resolvedAfter tick`: the interval callback saw isReady at the given tick and
resolved the promise, letting the awaiting operation proceed.
`promiseRejected`: the promise settles with a failure that the awaiting store
operation would observe as a thrown error — included so the spec's
expectation is statable; the code's promise executor installs only `resolve`
(src/unnamed/part_000 line 150), so no rejection path exists.
`uncaughtTimerError`: the callback's `throw` once the attempt counter exceeds
the bound; a throw inside a setInterval callback propagates to the host event
loop, not to the promise being awaited, so the promise never settles and the
awaiting operation observes nothing. -/
inductive WaitOutcome where
  | resolvedImmediately
  | resolvedAfter (tick : Nat)
  | promiseRejected
  | uncaughtTimerError
deriving DecidableEq

/-- The polling interval of the readiness gate, in milliseconds
(src/unnamed/part_000 line 163: setInterval(..., 100)). -/
def waitIntervalMs : Nat := 100

/-- The attempt bound of the readiness gate (src/unnamed/part_000 line 152:
attempt > 300 aborts). -/
def waitAttemptLimit : Nat := 300

/-- The setInterval callback loop of waitInitialization: at each tick the
attempt counter increments first; past the bound the callback clears the
interval and throws (an uncaught error — see WaitOutcome); otherwise it
resolves when the client is ready at that tick. `isReady k` is the
externally driven readiness predicate sampled at tick k (tick k fires
k × waitIntervalMs milliseconds in; tick 0 is the synchronous check before
the promise is built); `remaining` counts ticks left before the bound, i.e.
waitAttemptLimit - attempt. -/
def waitPoll (isReady : Nat → Bool) (attempt : Nat) : Nat → WaitOutcome
  | 0 => .uncaughtTimerError
  | remaining + 1 =>
    if isReady (attempt + 1) then .resolvedAfter (attempt + 1)
    else waitPoll isReady (attempt + 1) remaining

/-- RedisSchemaExecutor.waitInitialization (src/unnamed/part_000 lines
146-165): returns at once when the client is already ready, else polls as
above. -/
def waitInitialization (isReady : Nat → Bool) : WaitOutcome :=
  if isReady 0 then .resolvedImmediately
  else waitPoll isReady 0 waitAttemptLimit

mutual
/-- Modelled from the spec: seal.exportMetadataOf renders a schema's
description; an object schema's description carries its `shape`, the declared
fields in declaration order, each field with its own description (this is
also what RedisSchemaExecutor.serialize consumes through shapeKeys). The
external library's exact field layout is not in this repository; what the
namespace-derivation claims need is that the description is a deterministic
rendering embedding the declared field names in declaration order, which this
modelling realises. -/
def exportMetadata : Schema → JVal
  | .prim .pstring => .obj (.cons "type" (.str "string") .nil)
  | .prim .pnumber => .obj (.cons "type" (.str "number") .nil)
  | .prim .pboolean => .obj (.cons "type" (.str "boolean") .nil)
  | .nullable s =>
    .obj (.cons "type" (.str "nullable") (.cons "inner" (exportMetadata s) .nil))
  | .array s =>
    .obj (.cons "type" (.str "array") (.cons "item" (exportMetadata s) .nil))
  | .object sh =>
    .obj (.cons "type" (.str "object")
      (.cons "shape" (.obj (exportShape sh)) .nil))

/-- The description of a shape: each declared field, in order, mapped to its
schema's description. -/
def exportShape : Shape → JFields
  | .nil => .nil
  | .cons k s rest => .cons k (exportMetadata s) (exportShape rest)
end

/-- The digest input of the namespace derivation:
[seal.exportMetadataOf(template), options || {}] as a JSON value. -/
def namespaceDigestInput (template : Schema) (options : JVal) : JVal :=
  .arr (.cons (exportMetadata template) (.cons options .nil))

/-- The RedisSchema constructor's namespace derivation (src/unnamed/part_000
lines 185-197): createHash("shake256", outputLength 8) over
jsonStringify([seal.exportMetadataOf(template), options || {}]), rendered
base64url. jsonStringify (external @sigiljs/sigil utility) and the
shake256-then-base64url step (node:crypto, external) are collaborators the
spec stipulates to be respectively a canonical text encoding and a
fixed-length collision-resistant digest in URL-safe text form, so both enter
the model as parameters: `stringify` the text encoding, `digestB64` the
digest-and-encode step. -/
def deriveNamespace (stringify : JVal → String) (digestB64 : String → String)
    (template : Schema) (options : JVal) : String :=
  digestB64 (stringify (namespaceDigestInput template options))

/-- The caller-facing RedisSchemaOptions record: optional ttl seconds,
optional readOnce, optional explicit namespace. -/
structure SchemaOpts where
  ttl : Option Nat
  readOnce : Option Bool
  ns : Option String

/-- The options object as it enters the digest input (`options || {}`): the
fields the caller actually set, as JSON. -/
def SchemaOpts.toJVal (o : SchemaOpts) : JVal :=
  .obj ((match o.ttl with
         | some t => JFields.cons "ttl" (.num (Int.ofNat t))
         | none => id)
        ((match o.readOnce with
          | some b => JFields.cons "readOnce" (.bool b)
          | none => id)
         ((match o.ns with
           | some n => JFields.cons "namespace" (.str n)
           | none => id)
          .nil)))

/-- The RedisSchema constructor (src/unnamed/part_000 lines 185-197): the
namespace is the caller's explicit one when provided, else the derived
digest; readOnce defaults to false; ttl is passed through. -/
def mkRedisSchema (stringify : JVal → String) (digestB64 : String → String)
    (template : Schema) (options : Option SchemaOpts) : Executor :=
  let optionsJson := match options with
    | some o => o.toJVal
    | none => .obj .nil
  { template := template
    ttl := options.bind SchemaOpts.ttl
    readOnce := (options.bind SchemaOpts.readOnce).getD false
    ns := match options.bind SchemaOpts.ns with
      | some n => n
      | none => deriveNamespace stringify digestB64 template optionsJson }

/-- Spec example schema A = object { userId: string, userName:
nullable(string) }. -/
def schemaA : Schema :=
  .object (.cons "userId" (.prim .pstring)
    (.cons "userName" (.nullable (.prim .pstring)) .nil))

/-- Spec example schema B = object { profile: A, active: bool }. -/
def schemaB : Schema :=
  .object (.cons "profile" schemaA (.cons "active" (.prim .pboolean) .nil))

/-- Spec example value for B: {profile: {userId: "1", userName: "bob"},
active: true}. -/
def valueB : JVal :=
  .obj (.cons "profile"
    (.obj (.cons "userId" (.str "1") (.cons "userName" (.str "bob") .nil)))
    (.cons "active" (.bool true) .nil))

/-- The encoding the claims expect for valueB: [["1","bob"], true]. -/
def expectedEncodingB : JVal :=
  .arr (.cons (.arr (.cons (.str "1") (.cons (.str "bob") .nil)))
    (.cons (.bool true) .nil))

/-- What serialize actually produces for valueB: [[undefined, undefined],
true] — the nested recursion reuses the top-level template's shape keys
("profile", "active"), which the inner object does not have. -/
def actualEncodingB : JVal :=
  .arr (.cons (.arr (.cons .undefined (.cons .undefined .nil)))
    (.cons (.bool true) .nil))

/-- The spec scenario-3 value for A: {userId: "7", userName: null}. -/
def valueX : JVal :=
  .obj (.cons "userId" (.str "7") (.cons "userName" .null .nil))

/-- A schema with an array-typed field: object { tags: array(string),
n: number }. -/
def schemaC : Schema :=
  .object (.cons "tags" (.array (.prim .pstring))
    (.cons "n" (.prim .pnumber) .nil))

/-- A conforming value for schemaC: {tags: ["a"], n: 1}. -/
def valueC : JVal :=
  .obj (.cons "tags" (.arr (.cons (.str "a") .nil))
    (.cons "n" (.num 1) .nil))

/-- The store with no records. -/
def emptyStore : Store := fun _ => none

/-- The spec scenario-3 store binding: schema A with { ttl: 2,
readOnce: true } and explicit namespace "ns", built through the RedisSchema
constructor (the stringify/digest parameters are irrelevant when the
namespace is explicit). -/
def execA : Executor :=
  mkRedisSchema (fun _ => "") (fun s => s) schemaA
    (some { ttl := some 2, readOnce := some true, ns := some "ns" })

/-- A store binding of schema A with explicit namespace "ns" and default
options (no ttl, readOnce false). -/
def execPlain : Executor :=
  mkRedisSchema (fun _ => "") (fun s => s) schemaA
    (some { ttl := none, readOnce := none, ns := some "ns" })

/-- The wire text set writes for valueX: the JSON array ["7", null]. -/
def wireX : Wire := .jsonText (.arr (.cons (.str "7") (.cons .null .nil)))

/-- The store contents after scenario-3's set("x", valueX) on the empty
store: exactly what Executor.set wrote (its error branch is not taken). -/
def storeAfterSetX : Store := fun k =>
  match execA.set emptyStore "x" valueX with
  | .ok p => p.2 k
  | .error _ => none

/-- A store holding, for namespace "ns", one record at the namespaced key
"ns+x". -/
def storeOneRecord : Store := fun k =>
  if k = "ns+x" then some wireX else none

/-- A readOnce store binding of schema A with explicit namespace "ns". -/
def execR : Executor :=
  mkRedisSchema (fun _ => "") (fun s => s) schemaA
    (some { ttl := none, readOnce := some true, ns := some "ns" })

/-- The wire of a record that parses as a JSON array but reconstructs to a
value failing validation against schema A: the array [5]. -/
def wireInvalid : Wire := .jsonText (.arr (.cons (.num 5) .nil))

/-- Store for the readOnce/validation-failure scenario: the record at the
namespaced key "ns+x" fails validation against A; a decoy record also sits
at the bare logical key "x". -/
def storeTwoRecords : Store := fun k =>
  if k = "ns+x" then some wireInvalid
  else if k = "x" then some (.jsonText (.arr (.cons (.num 7) .nil)))
  else none

/-- A store holding only the invalid record at the namespaced key "ns+x". -/
def storeOneInvalid : Store := fun k =>
  if k = "ns+x" then some wireInvalid else none

/-- A store holding the empty string at the namespaced key "ns+x". -/
def storeEmptyText : Store := fun k =>
  if k = "ns+x" then some Wire.emptyText else none

/-- The value sealJsonParser reconstructs from a parsed top-level array
before validating it: under an object schema, the fromCompressedArray
result; under any other schema, the parsed array itself. An overall `.ok
none` result of sealJsonParser arises exactly when this reconstructed value
fails validation. -/
def reconstructed (schema : Schema) (parsed : JVal) : Except JsError JVal :=
  match schema with
  | .object sh => fromCompressedArray parsed sh
  | _ => .ok parsed

/-- C1. The claimed codec round trip — decode(schema, encode(schema, value))
validates and is deep-equal to the value, for object schemas including
nested object fields as well as primitive/nullable/array schemas — fails on
the code at the spec's own example inputs: for schema B and its conforming
value {profile: {userId: "1", userName: "bob"}, active: true}, encode
produces [[undefined, undefined], true] (the nested recursion reuses the
top-level shape keys) and decoding the resulting wire throws a TypeError
(fromCompressedArray's recursive call passes a plain shape record where a
schema instance is expected); for a conforming primitive value, decode of
the encoded wire throws "Input must be a JSON array string"; for null under
a nullable schema, encode itself throws (Object.values(null)). -/
theorem roundtrip_encode_decode_failures :
    conforms schemaB valueB = true ∧
    serialize schemaB valueB = .ok actualEncodingB ∧
    sealJsonParser (jsonStringifyWire actualEncodingB) schemaB
      = .error .typeError ∧
    conforms (.prim .pstring) (.str "hi") = true ∧
    serialize (.prim .pstring) (.str "hi") = .ok (.str "hi") ∧
    sealJsonParser (jsonStringifyWire (.str "hi")) (.prim .pstring)
      = .error .notArrayInput ∧
    conforms (.nullable (.prim .pstring)) JVal.null = true ∧
    serialize (.nullable (.prim .pstring)) JVal.null = .error .typeError :=
  ⟨rfl, rfl, rfl, rfl, rfl, rfl, rfl, rfl⟩

/-- C2. The claim that encode recursively encodes an object field using that
field's own schema and passes every other field value (including nested
arrays) through unchanged fails on the code: serialize's recursive call is
`this.serialize(v)`, which reuses the TOP-LEVEL template's shape keys, so
for schema B the spec's example value encodes to [[undefined, undefined],
true] instead of the claimed [["1","bob"], true]; likewise an array-valued
field is recursed into (it is of typeof "object") and destroyed rather than
passed through unchanged. -/
theorem encode_nested_uses_toplevel_shape :
    conforms schemaB valueB = true ∧
    serialize schemaB valueB = .ok actualEncodingB ∧
    actualEncodingB ≠ expectedEncodingB ∧
    conforms schemaC valueC = true ∧
    serialize schemaC valueC
      = .ok (.arr (.cons (.arr (.cons .undefined (.cons .undefined .nil)))
          (.cons (.num 1) .nil))) ∧
    JVal.arr (.cons (.arr (.cons .undefined (.cons .undefined .nil)))
        (.cons (.num 1) .nil))
      ≠ .arr (.cons (.arr (.cons (.str "a") .nil)) (.cons (.num 1) .nil)) := by
  refine ⟨rfl, rfl, ?_, rfl, rfl, ?_⟩
  · simp [actualEncodingB, expectedEncodingB]
  · simp

/-- C3. The claim that under readOnce a record is retrievable exactly once
— first get returns and removes it, a second get returns null — fails on
the code: get's readOnce side effect calls this.delete(key), and delete
passes the BARE logical key to redis (`client.del(key)`, not fullKey), so
the record stored at "ns+x" survives and the second get returns the value
again (spec scenario 3: schema A, {ttl: 2, readOnce: true},
set("x", {userId: "7", userName: null})). -/
theorem readOnce_record_not_consumed :
    (execA.set emptyStore "x" valueX).map Prod.fst = .ok "x" ∧
    storeAfterSetX "ns+x" = some wireX ∧
    (execA.get storeAfterSetX "x" false).1 = .ok (some valueX) ∧
    (execA.get storeAfterSetX "x" false).2 "ns+x" = some wireX ∧
    (execA.get ((execA.get storeAfterSetX "x" false).2) "x" false).1
      = .ok (some valueX) ∧
    (Except.ok (some valueX) : Except JsError (Option JVal)) ≠ .ok none := by
  refine ⟨rfl, rfl, rfl, rfl, rfl, ?_⟩
  simp

/-- C4. The claim that delete(key) removes the record stored at
fullKey(namespace, key) = namespace + "+" + key fails on the code: delete
issues `client.del(key)` with the bare logical key, so on a store holding
the record at "ns+x", delete("x") removes nothing — the deletion result is
0 and the record is untouched (conjunct 1 confirms the claimed fullKey
composition itself, which set and get do use). -/
theorem delete_targets_bare_key :
    execPlain.fullKey "x" = "ns+x" ∧
    storeOneRecord (execPlain.fullKey "x") = some wireX ∧
    (execPlain.delete storeOneRecord "x").1 = 0 ∧
    (execPlain.delete storeOneRecord "x").2 (execPlain.fullKey "x")
      = storeOneRecord (execPlain.fullKey "x") ∧
    (0 : Nat) ≠ 1 := by
  refine ⟨rfl, rfl, rfl, rfl, ?_⟩
  simp

/-- C10. The claim that under readOnce the delete side effect is initiated
whenever a raw value is present — before decoding — and hence that the
record is consumed even when validation fails, is half right on the code:
the deletion is indeed initiated on the validation-failure path (the decoy
record at the bare key "x" is removed while get returns null), but the
record itself is NOT consumed, because the initiated delete targets the
bare logical key instead of fullKey(namespace, key); the record at "ns+x"
survives the read. -/
theorem readOnce_delete_initiated_before_validation :
    (execR.get storeTwoRecords "x" false).1 = .ok none ∧
    storeTwoRecords "x" = some (.jsonText (.arr (.cons (.num 7) .nil))) ∧
    (execR.get storeTwoRecords "x" false).2 "x" = none ∧
    (execR.get storeTwoRecords "x" false).2 "ns+x" = some wireInvalid :=
  ⟨rfl, rfl, rfl, rfl⟩

/-- The polling loop resolves at the first ready tick within its remaining
budget. -/
theorem waitPoll_resolves (isReady : Nat → Bool) :
    ∀ remaining attempt n, attempt < n → n ≤ attempt + remaining →
      isReady n = true → (∀ m, attempt < m → m < n → isReady m = false) →
      waitPoll isReady attempt remaining = .resolvedAfter n := by
  intro remaining
  induction remaining with
  | zero =>
    intro attempt n h1 h2 _ _
    omega
  | succ rem ih =>
    intro attempt n h1 h2 hn hprior
    by_cases hnext : isReady (attempt + 1) = true
    · have : n = attempt + 1 := by
        by_contra hne
        have : attempt + 1 < n := by omega
        have := hprior (attempt + 1) (by omega) this
        rw [hnext] at this
        exact Bool.true_eq_false.mp this
      subst this
      simp [waitPoll, hnext]
    · have hn1 : n ≠ attempt + 1 := by
        intro h
        rw [h] at hn
        exact hnext hn
      have := ih (attempt + 1) n (by omega) (by omega) hn
        (fun m hm1 hm2 => hprior m (by omega) hm2)
      simp [waitPoll, hnext, this]

/-- The polling loop throws its uncaught error when readiness never arrives
within the remaining budget. -/
theorem waitPoll_timeout (isReady : Nat → Bool) :
    ∀ remaining attempt,
      (∀ m, attempt < m → m ≤ attempt + remaining → isReady m = false) →
      waitPoll isReady attempt remaining = .uncaughtTimerError := by
  intro remaining
  induction remaining with
  | zero => intro attempt _; rfl
  | succ rem ih =>
    intro attempt h
    have hnext : isReady (attempt + 1) = false := h (attempt + 1) (by omega) (by omega)
    have := ih (attempt + 1) (fun m hm1 hm2 => h m (by omega) (by omega))
    simp [waitPoll, hnext, this]

/-- No run of the polling loop rejects the promise: the promise executor
installs only `resolve`. -/
theorem waitPoll_never_rejects (isReady : Nat → Bool) :
    ∀ remaining attempt,
      waitPoll isReady attempt remaining ≠ .promiseRejected := by
  intro remaining
  induction remaining with
  | zero => intro attempt h; exact WaitOutcome.noConfusion h
  | succ rem ih =>
    intro attempt
    by_cases hnext : isReady (attempt + 1) = true
    · simp [waitPoll, hnext]
    · simp only [waitPoll, hnext]
      simp only [Bool.false_eq_true, if_false]
      exact ih (attempt + 1)

/-- C5 (amended). The readiness gate returns immediately when the client is
already ready; otherwise it polls on a fixed 100 ms interval, resolving at
the first ready tick within the 300-attempt bound; on exceeding the bound it
throws the timeout error from inside the interval callback — and since the
promise executor installs no rejection path, the awaiting store operation's
promise never settles: no run produces a rejected promise. -/
theorem wait_gate_behaviour (isReady : Nat → Bool) :
    (isReady 0 = true → waitInitialization isReady = .resolvedImmediately) ∧
    (∀ n, 1 ≤ n → n ≤ waitAttemptLimit → isReady n = true →
      (∀ m, m < n → isReady m = false) →
      waitInitialization isReady = .resolvedAfter n) ∧
    ((∀ n, n ≤ waitAttemptLimit → isReady n = false) →
      waitInitialization isReady = .uncaughtTimerError) ∧
    waitInitialization isReady ≠ .promiseRejected ∧
    waitIntervalMs = 100 ∧ waitAttemptLimit = 300 := by
  refine ⟨?_, ?_, ?_, ?_, rfl, rfl⟩
  · intro h; simp [waitInitialization, h]
  · intro n h1 h2 hn hprior
    have h0 : isReady 0 = false := hprior 0 (by omega)
    have := waitPoll_resolves isReady waitAttemptLimit 0 n (by omega)
      (by omega) hn (fun m hm1 hm2 => hprior m hm2)
    simp [waitInitialization, h0, this]
  · intro h
    have h0 : isReady 0 = false := h 0 (by omega)
    have := waitPoll_timeout isReady waitAttemptLimit 0
      (fun m _ hm2 => h m (by omega))
    simp [waitInitialization, h0, this]
  · by_cases h0 : isReady 0 = true
    · simp [waitInitialization, h0]
    · simp only [waitInitialization, h0]
      simp only [Bool.false_eq_true, if_false]
      exact waitPoll_never_rejects isReady waitAttemptLimit 0

/-- Witness for wait_gate_behaviour: an always-ready client returns
immediately; a client becoming ready at tick 2 resolves at tick 2; a
never-ready client ends in the uncaught timer error, which is not a promise
rejection. -/
theorem wait_gate_behaviour_witness :
    waitInitialization (fun _ => true) = .resolvedImmediately ∧
    waitInitialization (fun n => decide (2 ≤ n)) = .resolvedAfter 2 ∧
    waitInitialization (fun _ => false) = .uncaughtTimerError ∧
    waitInitialization (fun _ => false) ≠ .promiseRejected :=
  ⟨(wait_gate_behaviour (fun _ => true)).1 rfl,
   (wait_gate_behaviour (fun n => decide (2 ≤ n))).2.1 2 (by omega)
     (by decide) (by decide) (by decide),
   (wait_gate_behaviour (fun _ => false)).2.2.1 (fun _ _ => rfl),
   (wait_gate_behaviour (fun _ => false)).2.2.2.1⟩

/-- C5 (counterexample to the claim as stated). With a client that never
becomes ready, waitInitialization's outcome is the uncaught in-callback
throw, which is not a settled (rejected) promise: the error is not delivered
through the store operation's promise — the operation hangs. -/
theorem wait_timeout_promise_never_settles :
    waitInitialization (fun _ => false) = .uncaughtTimerError ∧
    WaitOutcome.uncaughtTimerError ≠ WaitOutcome.promiseRejected := by
  refine ⟨rfl, ?_⟩
  simp

/-- C6. On a key absent from the store, get(key, force=true) throws the
Key-not-found error and get(key) without force returns null; the store is
untouched either way. -/
theorem get_absent_force_vs_plain (e : Executor) (store : Store)
    (key : String) (h : store (e.fullKey key) = none) :
    e.get store key true = (.error .notFound, store) ∧
    e.get store key false = (.ok none, store) := by
  unfold Executor.get
  rw [h]
  exact ⟨rfl, rfl⟩

/-- Witness for get_absent_force_vs_plain at the empty store. -/
theorem get_absent_force_vs_plain_witness :
    execPlain.get emptyStore "missing" true = (.error .notFound, emptyStore) ∧
    execPlain.get emptyStore "missing" false = (.ok none, emptyStore) :=
  get_absent_force_vs_plain execPlain emptyStore "missing" rfl

/-- C9. A key holding the empty string is treated exactly like an absent
key: the raw value is falsy, so get(key) returns null and get(key,
force=true) throws the Key-not-found error, with the store untouched (in
particular no readOnce deletion is initiated). -/
theorem get_empty_string_treated_as_absent (e : Executor) (store : Store)
    (key : String) (h : store (e.fullKey key) = some Wire.emptyText) :
    e.get store key true = (.error .notFound, store) ∧
    e.get store key false = (.ok none, store) := by
  unfold Executor.get
  rw [h]
  exact ⟨rfl, rfl⟩

/-- Witness for get_empty_string_treated_as_absent: a store holding the
empty string at "ns+x". -/
theorem get_empty_string_treated_as_absent_witness :
    execPlain.get storeEmptyText "x" true = (.error .notFound, storeEmptyText) ∧
    execPlain.get storeEmptyText "x" false = (.ok none, storeEmptyText) :=
  get_empty_string_treated_as_absent execPlain storeEmptyText "x" rfl

/-- C7. On a present record whose parsed wire value is a JSON array but
whose reconstructed value fails schema validation, get returns null whether
or not force is set: force only changes the absent-key path, not the
validation-failure path. -/
theorem get_validation_failure_yields_null (e : Executor) (store : Store)
    (key : String) (xs : JElems) (r : JVal)
    (hraw : store (e.fullKey key) = some (.jsonText (.arr xs)))
    (hrec : reconstructed e.template (.arr xs) = .ok r)
    (hval : conforms e.template r = false) :
    (e.get store key true).1 = .ok none ∧
    (e.get store key false).1 = .ok none := by
  have hparse : sealJsonParser (.jsonText (.arr xs)) e.template = .ok none := by
    obtain ⟨t, ttl0, ro0, ns0⟩ := e
    simp only at hrec hval ⊢
    cases t with
    | prim k =>
      simp only [reconstructed, Except.ok.injEq] at hrec
      subst hrec
      simp [sealJsonParser, sealJsonParserOnParsed, hval]
    | nullable s =>
      simp only [reconstructed, Except.ok.injEq] at hrec
      subst hrec
      simp [sealJsonParser, sealJsonParserOnParsed, hval]
    | array s =>
      simp only [reconstructed, Except.ok.injEq] at hrec
      subst hrec
      simp [sealJsonParser, sealJsonParserOnParsed, hval]
    | object sh =>
      simp only [reconstructed] at hrec
      simp [sealJsonParser, sealJsonParserOnParsed, hrec, hval]
  unfold Executor.get
  rw [hraw]
  exact ⟨by simp [hparse], by simp [hparse]⟩

/-- Witness for get_validation_failure_yields_null: the record [5] at
execPlain's key "x" reconstructs to {userId: 5, userName: undefined}, which
fails validation against schema A; get returns null with and without
force. -/
theorem get_validation_failure_yields_null_witness :
    (execPlain.get storeOneInvalid "x" true).1 = .ok none ∧
    (execPlain.get storeOneInvalid "x" false).1 = .ok none :=
  get_validation_failure_yields_null execPlain storeOneInvalid "x"
    (.cons (.num 5) .nil)
    (.obj (.cons "userId" (.num 5) (.cons "userName" .undefined .nil)))
    rfl rfl rfl

/-- The description of a shape lists exactly the declared field names, in
declaration order. -/
theorem exportShape_names : (sh : Shape) → (exportShape sh).names = sh.names
  | .nil => rfl
  | .cons k s rest => by
    simp [exportShape, JFields.names, Shape.names, exportShape_names rest]

/-- C8. Namespace derivation is deterministic — it is a pure function of the
schema description and the options, with no dependence on time, randomness
or instance identity — and derivations differing in the schema's field
set/order or in the options produce different namespaces, given the two
properties the spec stipulates of the external collaborators: the text
encoding is canonical (hcanon: equal texts only for equal digest inputs)
and the fixed-length digest does not collide on the two digest inputs at
hand (hdigest). The substantive content proved about this repository's code
is that the digest input [exportMetadataOf(template), options] separates
both the declared field names (in order) and the options. -/
theorem namespace_derivation_deterministic_and_injective
    (stringify : JVal → String) (digestB64 : String → String)
    (sh1 sh2 : Shape) (o1 o2 : JVal)
    (hdiff : sh1.names ≠ sh2.names ∨ o1 ≠ o2)
    (hcanon : stringify (namespaceDigestInput (.object sh1) o1) =
        stringify (namespaceDigestInput (.object sh2) o2) →
        namespaceDigestInput (.object sh1) o1 =
        namespaceDigestInput (.object sh2) o2)
    (hdigest : digestB64 (stringify (namespaceDigestInput (.object sh1) o1)) =
        digestB64 (stringify (namespaceDigestInput (.object sh2) o2)) →
        stringify (namespaceDigestInput (.object sh1) o1) =
        stringify (namespaceDigestInput (.object sh2) o2)) :
    (∀ (t t2 : Schema) (oo oo2 : JVal), t = t2 → oo = oo2 →
      deriveNamespace stringify digestB64 t oo =
      deriveNamespace stringify digestB64 t2 oo2) ∧
    deriveNamespace stringify digestB64 (.object sh1) o1 ≠
    deriveNamespace stringify digestB64 (.object sh2) o2 := by
  constructor
  · intro t t2 oo oo2 ht ho
    rw [ht, ho]
  · intro h
    unfold deriveNamespace at h
    have hinput := hcanon (hdigest h)
    unfold namespaceDigestInput at hinput
    simp only [JVal.arr.injEq, JElems.cons.injEq] at hinput
    obtain ⟨hmeta, ho, -⟩ := hinput
    rcases hdiff with hnames | hopts
    · apply hnames
      simp only [exportMetadata, JVal.obj.injEq, JFields.cons.injEq,
        JVal.str.injEq] at hmeta
      have hshape : exportShape sh1 = exportShape sh2 := by
        tauto
      calc sh1.names = (exportShape sh1).names := (exportShape_names sh1).symm
        _ = (exportShape sh2).names := by rw [hshape]
        _ = sh2.names := exportShape_names sh2
    · exact hopts ho

/-- Concrete stringify instantiation for the namespace-derivation witness:
distinguishes digest inputs whose options object is empty from the rest. -/
def cStringify : JVal → String
  | .arr (.cons _ (.cons (.obj .nil) .nil)) => "e"
  | _ => "n"

/-- Witness for namespace_derivation_deterministic_and_injective: under the
concrete canonical-on-these-inputs encoding cStringify and the identity
digest, the same one-field shape with options {readOnce: true} versus {}
derives different namespaces. -/
theorem namespace_derivation_witness :
    deriveNamespace cStringify id
      (.object (.cons "a" (.prim .pstring) .nil))
      (.obj (.cons "readOnce" (.bool true) .nil)) ≠
    deriveNamespace cStringify id
      (.object (.cons "a" (.prim .pstring) .nil))
      (.obj .nil) :=
  (namespace_derivation_deterministic_and_injective cStringify id
    (.cons "a" (.prim .pstring) .nil) (.cons "a" (.prim .pstring) .nil)
    (.obj (.cons "readOnce" (.bool true) .nil)) (.obj .nil)
    (Or.inr (by simp))
    (fun h => absurd h (by decide))
    (fun h => h)).2

end RedisPlugin
